import Mathlib

/-!
Verification of the scalar-expression IR layer of matxscript
(`src/ir/prim_ops.cc` and `src/ir/analysis/deep_equal.cc`): the typed
expression algebra, the type-promotion engine `BinaryOpMatchTypes`, the
constant-fold-aware smart constructors, and the deep structural equality
engine.  Helpers that live outside the two embedded files (the constant
folder of `const_fold.h`, `make_const`, the index-const-propagation macro,
the node constructors and `is_pos_inf`/`is_neg_inf`) are modelled from the
specification, as indicated on each definition.
-/

namespace MatxIR

/-- Scalar kind of a numeric type descriptor (`DataType::TypeCode`).
Booleans are represented, as in the source runtime, as unsigned integers
of bit-width 1. -/
inductive TypeCode where
  | int
  | uint
  | float
deriving DecidableEq

/-- Numeric type descriptor: scalar kind, bit width and vector lane count
(`runtime::DataType`).  Two descriptors are equal iff all three fields
match. -/
structure DataType where
  code : TypeCode
  bits : Nat
  lanes : Nat
deriving DecidableEq

def DataType.isInt (t : DataType) : Bool := t.code == TypeCode.int

def DataType.isUInt (t : DataType) : Bool := t.code == TypeCode.uint

def DataType.isFloat (t : DataType) : Bool := t.code == TypeCode.float

/-- `DataType::is_bool`: unsigned with bit-width 1. -/
def DataType.isBool (t : DataType) : Bool := t.isUInt && t.bits == 1

/-- `DataType::Int(bits, lanes)`. -/
def DataType.mkInt (bits lanes : Nat) : DataType := ⟨TypeCode.int, bits, lanes⟩

/-- `DataType::UInt(bits, lanes)`. -/
def DataType.mkUInt (bits lanes : Nat) : DataType := ⟨TypeCode.uint, bits, lanes⟩

/-- `DataType::Float(bits, lanes)`. -/
def DataType.mkFloat (bits lanes : Nat) : DataType := ⟨TypeCode.float, bits, lanes⟩

/-- `DataType::Bool(lanes)` = unsigned, 1 bit. -/
def DataType.mkBool (lanes : Nat) : DataType := ⟨TypeCode.uint, 1, lanes⟩

def I16 : DataType := DataType.mkInt 16 1
def I32 : DataType := DataType.mkInt 32 1
def I64 : DataType := DataType.mkInt 64 1
def U16 : DataType := DataType.mkUInt 16 1
def U32 : DataType := DataType.mkUInt 32 1
def F32 : DataType := DataType.mkFloat 32 1
def F64 : DataType := DataType.mkFloat 64 1
def B1 : DataType := DataType.mkBool 1

/-- Value slot of a `FloatImmNode`: a finite value (modelled as an exact
rational) or one of the two IEEE infinities.  NaN never arises in the
embedded operations. -/
inductive FloatVal where
  | fin (q : ℚ)
  | pinf
  | ninf
deriving DecidableEq

/-- Tag distinguishing the binary operator node classes and the
operator parameter of the constant folder (`PrimAdd`, `PrimDiv`,
`PrimFloorDiv`, `PrimFloorMod`, `PrimMin`, `PrimMax`, `PrimAnd`,
`PrimOr`). -/
inductive BinTag where
  | add
  | div
  | floordiv
  | floormod
  | minT
  | maxT
  | land
  | lor
deriving DecidableEq

/-- Expression node (`PrimExpr`), restricted to the node shapes the two
embedded files construct or inspect: integer and float literals
(`IntImmNode`, `FloatImmNode`), variables (`PrimVarNode`, with an
identity tag standing for object identity), cast nodes (`PrimCast`),
binary operator nodes, logical negation (`PrimNot`), and intrinsic calls
(`PrimCall`, the operator named by its registry string). -/
inductive PExpr where
  | intImm (dtype : DataType) (value : Int)
  | floatImm (dtype : DataType) (value : FloatVal)
  | var (dtype : DataType) (id : Nat)
  | primCast (dtype : DataType) (value : PExpr)
  | binOp (tag : BinTag) (dtype : DataType) (a b : PExpr)
  | notOp (dtype : DataType) (a : PExpr)
  | call (dtype : DataType) (op : String) (args : List PExpr)

mutual

/-- Decidable structural equality of expression nodes (hand-written
because the nested list of call arguments defeats derivation). -/
def PExpr.decEq : (a b : PExpr) → Decidable (a = b)
  | .intImm t1 v1, .intImm t2 v2 =>
    if h : t1 = t2 ∧ v1 = v2 then .isTrue (by rw [h.1, h.2])
    else .isFalse (fun hc => by cases hc; exact h ⟨rfl, rfl⟩)
  | .floatImm t1 v1, .floatImm t2 v2 =>
    if h : t1 = t2 ∧ v1 = v2 then .isTrue (by rw [h.1, h.2])
    else .isFalse (fun hc => by cases hc; exact h ⟨rfl, rfl⟩)
  | .var t1 i1, .var t2 i2 =>
    if h : t1 = t2 ∧ i1 = i2 then .isTrue (by rw [h.1, h.2])
    else .isFalse (fun hc => by cases hc; exact h ⟨rfl, rfl⟩)
  | .primCast t1 v1, .primCast t2 v2 =>
    if ht : t1 = t2 then
      match PExpr.decEq v1 v2 with
      | .isTrue hv => .isTrue (by rw [ht, hv])
      | .isFalse hv => .isFalse (fun h => hv (by injection h))
    else .isFalse (fun h => ht (by injection h))
  | .binOp g1 t1 a1 b1, .binOp g2 t2 a2 b2 =>
    if hgt : g1 = g2 ∧ t1 = t2 then
      match PExpr.decEq a1 a2, PExpr.decEq b1 b2 with
      | .isTrue ha, .isTrue hb => .isTrue (by rw [hgt.1, hgt.2, ha, hb])
      | .isFalse ha, _ => .isFalse (fun h => ha (by injection h))
      | _, .isFalse hb => .isFalse (fun h => hb (by injection h))
    else .isFalse (fun h => by cases h; exact hgt ⟨rfl, rfl⟩)
  | .notOp t1 a1, .notOp t2 a2 =>
    if ht : t1 = t2 then
      match PExpr.decEq a1 a2 with
      | .isTrue ha => .isTrue (by rw [ht, ha])
      | .isFalse ha => .isFalse (fun h => ha (by injection h))
    else .isFalse (fun h => ht (by injection h))
  | .call t1 o1 as1, .call t2 o2 as2 =>
    if hto : t1 = t2 ∧ o1 = o2 then
      match PExpr.decEqList as1 as2 with
      | .isTrue ha => .isTrue (by rw [hto.1, hto.2, ha])
      | .isFalse ha => .isFalse (fun h => ha (by injection h))
    else .isFalse (fun h => by cases h; exact hto ⟨rfl, rfl⟩)
  | .intImm _ _, .floatImm _ _ => .isFalse (fun h => PExpr.noConfusion h)
  | .intImm _ _, .var _ _ => .isFalse (fun h => PExpr.noConfusion h)
  | .intImm _ _, .primCast _ _ => .isFalse (fun h => PExpr.noConfusion h)
  | .intImm _ _, .binOp _ _ _ _ => .isFalse (fun h => PExpr.noConfusion h)
  | .intImm _ _, .notOp _ _ => .isFalse (fun h => PExpr.noConfusion h)
  | .intImm _ _, .call _ _ _ => .isFalse (fun h => PExpr.noConfusion h)
  | .floatImm _ _, .intImm _ _ => .isFalse (fun h => PExpr.noConfusion h)
  | .floatImm _ _, .var _ _ => .isFalse (fun h => PExpr.noConfusion h)
  | .floatImm _ _, .primCast _ _ => .isFalse (fun h => PExpr.noConfusion h)
  | .floatImm _ _, .binOp _ _ _ _ => .isFalse (fun h => PExpr.noConfusion h)
  | .floatImm _ _, .notOp _ _ => .isFalse (fun h => PExpr.noConfusion h)
  | .floatImm _ _, .call _ _ _ => .isFalse (fun h => PExpr.noConfusion h)
  | .var _ _, .intImm _ _ => .isFalse (fun h => PExpr.noConfusion h)
  | .var _ _, .floatImm _ _ => .isFalse (fun h => PExpr.noConfusion h)
  | .var _ _, .primCast _ _ => .isFalse (fun h => PExpr.noConfusion h)
  | .var _ _, .binOp _ _ _ _ => .isFalse (fun h => PExpr.noConfusion h)
  | .var _ _, .notOp _ _ => .isFalse (fun h => PExpr.noConfusion h)
  | .var _ _, .call _ _ _ => .isFalse (fun h => PExpr.noConfusion h)
  | .primCast _ _, .intImm _ _ => .isFalse (fun h => PExpr.noConfusion h)
  | .primCast _ _, .floatImm _ _ => .isFalse (fun h => PExpr.noConfusion h)
  | .primCast _ _, .var _ _ => .isFalse (fun h => PExpr.noConfusion h)
  | .primCast _ _, .binOp _ _ _ _ => .isFalse (fun h => PExpr.noConfusion h)
  | .primCast _ _, .notOp _ _ => .isFalse (fun h => PExpr.noConfusion h)
  | .primCast _ _, .call _ _ _ => .isFalse (fun h => PExpr.noConfusion h)
  | .binOp _ _ _ _, .intImm _ _ => .isFalse (fun h => PExpr.noConfusion h)
  | .binOp _ _ _ _, .floatImm _ _ => .isFalse (fun h => PExpr.noConfusion h)
  | .binOp _ _ _ _, .var _ _ => .isFalse (fun h => PExpr.noConfusion h)
  | .binOp _ _ _ _, .primCast _ _ => .isFalse (fun h => PExpr.noConfusion h)
  | .binOp _ _ _ _, .notOp _ _ => .isFalse (fun h => PExpr.noConfusion h)
  | .binOp _ _ _ _, .call _ _ _ => .isFalse (fun h => PExpr.noConfusion h)
  | .notOp _ _, .intImm _ _ => .isFalse (fun h => PExpr.noConfusion h)
  | .notOp _ _, .floatImm _ _ => .isFalse (fun h => PExpr.noConfusion h)
  | .notOp _ _, .var _ _ => .isFalse (fun h => PExpr.noConfusion h)
  | .notOp _ _, .primCast _ _ => .isFalse (fun h => PExpr.noConfusion h)
  | .notOp _ _, .binOp _ _ _ _ => .isFalse (fun h => PExpr.noConfusion h)
  | .notOp _ _, .call _ _ _ => .isFalse (fun h => PExpr.noConfusion h)
  | .call _ _ _, .intImm _ _ => .isFalse (fun h => PExpr.noConfusion h)
  | .call _ _ _, .floatImm _ _ => .isFalse (fun h => PExpr.noConfusion h)
  | .call _ _ _, .var _ _ => .isFalse (fun h => PExpr.noConfusion h)
  | .call _ _ _, .primCast _ _ => .isFalse (fun h => PExpr.noConfusion h)
  | .call _ _ _, .binOp _ _ _ _ => .isFalse (fun h => PExpr.noConfusion h)
  | .call _ _ _, .notOp _ _ => .isFalse (fun h => PExpr.noConfusion h)

/-- Decidable equality of call-argument lists. -/
def PExpr.decEqList : (as bs : List PExpr) → Decidable (as = bs)
  | [], [] => .isTrue rfl
  | [], _ :: _ => .isFalse (fun h => List.noConfusion h)
  | _ :: _, [] => .isFalse (fun h => List.noConfusion h)
  | a :: as, b :: bs =>
    match PExpr.decEq a b, PExpr.decEqList as bs with
    | .isTrue h1, .isTrue h2 => .isTrue (by rw [h1, h2])
    | .isFalse h1, _ => .isFalse (fun h => h1 (by injection h))
    | _, .isFalse h2 => .isFalse (fun h => h2 (by injection h))

end

instance : DecidableEq PExpr := PExpr.decEq

/-- `PrimExpr::dtype()`: the descriptor stored in the node. -/
def PExpr.dtype : PExpr → DataType
  | .intImm t _ => t
  | .floatImm t _ => t
  | .var t _ => t
  | .primCast t _ => t
  | .binOp _ t _ _ => t
  | .notOp t _ => t
  | .call t _ _ => t

/-- Whether the node is a literal (`IntImmNode` or `FloatImmNode`). -/
def PExpr.isImm : PExpr → Bool
  | .intImm _ _ => true
  | .floatImm _ _ => true
  | _ => false

/-- `expr.as<IntImmNode>()`: the integer-literal view, when the node is
an integer literal. -/
def PExpr.intVal? : PExpr → Option Int
  | .intImm _ v => some v
  | _ => none

/-- Truncation of a float value toward zero (the C conversion applied
when a float literal is rebuilt as an integer literal); the non-finite
cases never arise in the embedded operations. -/
def FloatVal.truncToInt : FloatVal → Option Int
  | .fin q => some (if q < 0 then ⌈q⌉ else ⌊q⌋)
  | _ => none

/-- `std::floor` on a literal value. -/
def FloatVal.floorF : FloatVal → FloatVal
  | .fin q => .fin ((⌊q⌋ : ℤ) : ℚ)
  | .pinf => .pinf
  | .ninf => .ninf

/-- `std::ceil` on a literal value. -/
def FloatVal.ceilF : FloatVal → FloatVal
  | .fin q => .fin ((⌈q⌉ : ℤ) : ℚ)
  | .pinf => .pinf
  | .ninf => .ninf

/-- `std::nearbyint` on a literal value (default rounding mode: round
half to even). -/
def FloatVal.nearbyF : FloatVal → FloatVal
  | .fin q =>
    let n : ℤ := ⌊q⌋
    let r : ℚ := q - (n : ℚ)
    if r < 1/2 then .fin (n : ℚ)
    else if r > 1/2 then .fin ((n + 1 : ℤ) : ℚ)
    else if n % 2 = 0 then .fin (n : ℚ) else .fin ((n + 1 : ℤ) : ℚ)
  | .pinf => .pinf
  | .ninf => .ninf

/-- `value < 0 ? std::ceil(value) : std::floor(value)`, the literal fast
path of `trunc`. -/
def FloatVal.truncF : FloatVal → FloatVal
  | .fin q => if q < 0 then .fin ((⌈q⌉ : ℤ) : ℚ) else .fin ((⌊q⌋ : ℤ) : ℚ)
  | .pinf => .pinf
  | .ninf => .ninf

/-- Modelled from the spec: `make_const(t, value)` for an integer source
value (the literal-rebuilding helper used by `cast`, which lives outside
the embedded files).  Per §4.1, casting a literal "reinterprets/recomputes
the literal rather than wrapping it in a cast node": an integer or
unsigned target rebuilds an integer literal, a float target rebuilds a
float literal, any other target is a fatal error.  (Bit-width truncation
of out-of-range values is not modelled; all claim inputs are in range.) -/
def makeConstI (t : DataType) (v : Int) : Option PExpr :=
  if t.isInt || t.isUInt then some (.intImm t v)
  else if t.isFloat then some (.floatImm t (.fin (v : ℚ)))
  else none

/-- Modelled from the spec: `make_const(t, value)` for a float source
value; an integer target truncates toward zero, a float target rebuilds
the float literal, any other target is a fatal error. -/
def makeConstF (t : DataType) (f : FloatVal) : Option PExpr :=
  if t.isInt || t.isUInt then (f.truncToInt).map (fun v => .intImm t v)
  else if t.isFloat then some (.floatImm t f)
  else none

/-- `cast(t, value)` from `prim_ops.cc`: no-op when the type already
matches; for a single-lane target a literal operand is rebuilt as a
literal of the target type via `make_const`; otherwise a structural
`PrimCast` node, with a fatal lane-count check on the multi-lane path. -/
def cast (t : DataType) (value : PExpr) : Option PExpr :=
  if value.dtype = t then some value
  else if t.lanes = 1 then
    match value with
    | .intImm _ v => makeConstI t v
    | .floatImm _ f => makeConstF t f
    | _ => some (.primCast t value)
  else if value.dtype.lanes = t.lanes then some (.primCast t value)
  else none

/-- `SimpleCast(t, value)` from `prim_ops.cc`: casts only when the type
differs, always via a structural cast node (no literal rebuilding). -/
def SimpleCast (t : DataType) (value : PExpr) : PExpr :=
  if value.dtype = t then value else .primCast t value

/-- `BinaryOpMatchTypes(lhs, rhs)` from `prim_ops.cc`: the type
promotion engine.  Returns the two (possibly cast-wrapped) operands, or
`none` on a fatal contract violation (lane mismatch or an unsupported
type-class combination). -/
def BinaryOpMatchTypes (lhs rhs : PExpr) : Option (PExpr × PExpr) :=
  if lhs.dtype = rhs.dtype then some (lhs, rhs)
  else if lhs.dtype.lanes ≠ rhs.dtype.lanes then none
  else if !lhs.dtype.isFloat && rhs.dtype.isFloat then
    (cast rhs.dtype lhs).map (fun l => (l, rhs))
  else if lhs.dtype.isFloat && !rhs.dtype.isFloat then
    (cast lhs.dtype rhs).map (fun r => (lhs, r))
  else if (lhs.dtype.isInt && rhs.dtype.isInt) || (lhs.dtype.isUInt && rhs.dtype.isUInt) then
    if lhs.dtype.bits < rhs.dtype.bits then (cast rhs.dtype lhs).map (fun l => (l, rhs))
    else (cast lhs.dtype rhs).map (fun r => (lhs, r))
  else if (lhs.dtype.isInt && rhs.dtype.isUInt) || (lhs.dtype.isUInt && rhs.dtype.isInt) then
    some (SimpleCast (DataType.mkInt (Nat.max lhs.dtype.bits rhs.dtype.bits) lhs.dtype.lanes) lhs,
          SimpleCast (DataType.mkInt (Nat.max lhs.dtype.bits rhs.dtype.bits) rhs.dtype.lanes) rhs)
  else none

/-- Arithmetic right shift on 64-bit signed values (`>>` on `int64_t`):
floor division by the corresponding power of two. -/
def asr : Int → Nat → Int
  | .ofNat n, s => .ofNat (n >>> s)
  | .negSucc n, s => .negSucc (n >>> s)

/-- Reduce an unbounded integer to the value an `int64_t` holds for it:
two's-complement wraparound modulo `2^64` into `[-2^63, 2^63)`. -/
def wrap64 (v : Int) : Int := (v + 2 ^ 63) % 2 ^ 64 - 2 ^ 63

/-- Left shift on 64-bit signed values (`<<` on `int64_t`): the product
with the corresponding power of two, wrapped into the signed 64-bit
range as the machine register does on overflow. -/
def lsl (v : Int) (s : Nat) : Int := wrap64 (v * 2 ^ s)

/-- Modelled from the spec: the integer evaluation rules of the constant
folder in `const_fold.h` (§4.3), keyed by the operator.  Division-like
operators decline to fold on a zero divisor; `div` is declared over
floats only (§4.2: `div` always evaluates in 64-bit floating point), so
its integer rule declines. -/
def intFold : BinTag → Int → Int → Option Int
  | .add, a, b => some (a + b)
  | .div, _, _ => none
  | .floordiv, a, b => if b = 0 then none else some (Int.fdiv a b)
  | .floormod, a, b => if b = 0 then none else some (a - b * Int.fdiv a b)
  | .minT, a, b => some (if a ≤ b then a else b)
  | .maxT, a, b => some (if a ≤ b then b else a)
  | .land, a, b => some (if a ≠ 0 ∧ b ≠ 0 then 1 else 0)
  | .lor, a, b => some (if a ≠ 0 ∨ b ≠ 0 then 1 else 0)

/-- Modelled from the spec: the float evaluation rules of the constant
folder (§4.3).  Folding applies to finite values; non-finite literal
operands and zero divisors are left unfolded, and the logical operators
have no float rule (§4.2: truth tables over booleans/integers). -/
def floatFold : BinTag → FloatVal → FloatVal → Option FloatVal
  | .add, .fin a, .fin b => some (.fin (a + b))
  | .div, .fin a, .fin b => if b = 0 then none else some (.fin (a / b))
  | .floordiv, .fin a, .fin b => if b = 0 then none else some (.fin ((⌊a / b⌋ : ℤ) : ℚ))
  | .floormod, .fin a, .fin b =>
    if b = 0 then none else some (.fin (a - b * ((⌊a / b⌋ : ℤ) : ℚ)))
  | .minT, .fin a, .fin b => some (.fin (if a ≤ b then a else b))
  | .maxT, .fin a, .fin b => some (.fin (if a ≤ b then b else a))
  | _, _, _ => none

/-- Result descriptor of a folded literal: the (already matched) operand
type, except that the logical operators produce a boolean of the operand
lane count. -/
def foldDType (tag : BinTag) (t : DataType) : DataType :=
  match tag with
  | .land => DataType.mkBool t.lanes
  | .lor => DataType.mkBool t.lanes
  | _ => t

/-- Modelled from the spec: `arith::TryConstFold<Op>(a, b)` of
`const_fold.h` (§4.3) — given two already type-matched operands,
evaluates the operator when both are literals of the same kind (both
integer or both float), returning a new literal node; returns no result
for any other shape. -/
def tryConstFold (tag : BinTag) (a b : PExpr) : Option PExpr :=
  match a, b with
  | .intImm ta va, .intImm _ vb =>
    (intFold tag va vb).map (fun v => .intImm (foldDType tag ta) v)
  | .floatImm ta fa, .floatImm _ fb =>
    (floatFold tag fa fb).map (fun f => .floatImm (foldDType tag ta) f)
  | _, _ => none

/-- Modelled from the spec: `arith::TryConstFold<PrimNot>(a)` — boolean
truth table on an integer literal. -/
def tryConstFoldNot (a : PExpr) : Option PExpr :=
  match a with
  | .intImm t v => some (.intImm (DataType.mkBool t.lanes) (if v = 0 then 1 else 0))
  | _ => none

/-- Modelled from the spec: `arith::is_pos_inf` — the operand is a float
literal holding positive infinity. -/
def isPosInf : PExpr → Bool
  | .floatImm _ .pinf => true
  | _ => false

/-- Modelled from the spec: `arith::is_neg_inf` — the operand is a float
literal holding negative infinity. -/
def isNegInf : PExpr → Bool
  | .floatImm _ .ninf => true
  | _ => false

/-- `add(a, b)`: promote, try the constant fold, otherwise build a
`PrimAdd` node.  The node's descriptor is the (matched) operand type, as
in the node constructor the source delegates to. -/
def add (a b : PExpr) : Option PExpr :=
  match BinaryOpMatchTypes a b with
  | none => none
  | some (a1, b1) =>
    match tryConstFold .add a1 b1 with
    | some ret => some ret
    | none => some (.binOp .add a1.dtype a1 b1)

/-- `div(a, b)`: promote, cast both operands to 64-bit float, try the
constant fold, otherwise build the `ir.div` intrinsic call of type
`Float(64)` (the second pair of casts in the source is a no-op repeat). -/
def div (a b : PExpr) : Option PExpr :=
  match BinaryOpMatchTypes a b with
  | none => none
  | some (a1, b1) =>
    match cast (DataType.mkFloat 64 1) a1 with
    | none => none
    | some a2 =>
      match cast (DataType.mkFloat 64 1) b1 with
      | none => none
      | some b2 =>
        match tryConstFold .div a2 b2 with
        | some ret => some ret
        | none =>
          match cast (DataType.mkFloat 64 1) a2 with
          | none => none
          | some a3 =>
            match cast (DataType.mkFloat 64 1) b2 with
            | none => none
            | some b3 => some (.call (DataType.mkFloat 64 1) "ir.div" [a3, b3])

/-- `floordiv(a, b)`: remember whether both operands are
integer-or-unsigned, promote, try the constant fold; on fold failure the
both-integer path builds an `ir.floordiv` call forced to `Int(64)`, the
float path casts both operands to 64-bit float and builds the call at
the post-cast type. -/
def floordiv (a b : PExpr) : Option PExpr :=
  match BinaryOpMatchTypes a b with
  | none => none
  | some (a1, b1) =>
    match tryConstFold .floordiv a1 b1 with
    | some ret => some ret
    | none =>
      if (a.dtype.isInt || a.dtype.isUInt) && (b.dtype.isInt || b.dtype.isUInt) then
        some (.call (DataType.mkInt 64 1) "ir.floordiv" [a1, b1])
      else
        match cast (DataType.mkFloat 64 1) a1 with
        | none => none
        | some a2 =>
          match cast (DataType.mkFloat 64 1) b1 with
          | none => none
          | some b2 => some (.call a2.dtype "ir.floordiv" [a2, b2])

/-- `floormod(a, b)`: same shape as `floordiv` with the `ir.floormod`
operator. -/
def floormod (a b : PExpr) : Option PExpr :=
  match BinaryOpMatchTypes a b with
  | none => none
  | some (a1, b1) =>
    match tryConstFold .floormod a1 b1 with
    | some ret => some ret
    | none =>
      if (a.dtype.isInt || a.dtype.isUInt) && (b.dtype.isInt || b.dtype.isUInt) then
        some (.call (DataType.mkInt 64 1) "ir.floormod" [a1, b1])
      else
        match cast (DataType.mkFloat 64 1) a1 with
        | none => none
        | some a2 =>
          match cast (DataType.mkFloat 64 1) b1 with
          | none => none
          | some b2 => some (.call a2.dtype "ir.floormod" [a2, b2])

/-- `truncdiv(a, b)`: defined as `floordiv`. -/
def truncdiv (a b : PExpr) : Option PExpr := floordiv a b

/-- `indexdiv(a, b)`: defined as `floordiv`. -/
def indexdiv (a b : PExpr) : Option PExpr := floordiv a b

/-- `indexmod(a, b)`: defined as `floormod`. -/
def indexmod (a b : PExpr) : Option PExpr := floormod a b

/-- `min(a, b)`: infinity-aware short circuits before promotion, then
promote, fold, or build a `PrimMin` node. -/
def min (a b : PExpr) : Option PExpr :=
  if isPosInf a then some b
  else if isNegInf a then some a
  else if isPosInf b then some a
  else if isNegInf b then some b
  else
    match BinaryOpMatchTypes a b with
    | none => none
    | some (a1, b1) =>
      match tryConstFold .minT a1 b1 with
      | some ret => some ret
      | none => some (.binOp .minT a1.dtype a1 b1)

/-- `max(a, b)`: infinity-aware short circuits before promotion, then
promote, fold, or build a `PrimMax` node. -/
def max (a b : PExpr) : Option PExpr :=
  if isPosInf a then some a
  else if isNegInf a then some b
  else if isPosInf b then some b
  else if isNegInf b then some a
  else
    match BinaryOpMatchTypes a b with
    | none => none
    | some (a1, b1) =>
      match tryConstFold .maxT a1 b1 with
      | some ret => some ret
      | none => some (.binOp .maxT a1.dtype a1 b1)

/-- `logic_and(a, b)`: operands must be boolean or integer (fatal
otherwise), no promotion; fold, or build a `PrimAnd` node.  The node
descriptor (boolean of the left operand's lane count) follows the node
constructor, which is modelled from the spec. -/
def logic_and (a b : PExpr) : Option PExpr :=
  if !(a.dtype.isBool || a.dtype.isInt) then none
  else if !(b.dtype.isBool || b.dtype.isInt) then none
  else
    match tryConstFold .land a b with
    | some ret => some ret
    | none => some (.binOp .land (DataType.mkBool a.dtype.lanes) a b)

/-- `logic_or(a, b)`: same contract as `logic_and` with the `PrimOr`
node. -/
def logic_or (a b : PExpr) : Option PExpr :=
  if !(a.dtype.isBool || a.dtype.isInt) then none
  else if !(b.dtype.isBool || b.dtype.isInt) then none
  else
    match tryConstFold .lor a b with
    | some ret => some ret
    | none => some (.binOp .lor (DataType.mkBool a.dtype.lanes) a b)

/-- `logic_not(a)`: operand must be boolean or integer; fold, or build a
`PrimNot` node. -/
def logic_not (a : PExpr) : Option PExpr :=
  if !(a.dtype.isBool || a.dtype.isInt) then none
  else
    match tryConstFoldNot a with
    | some ret => some ret
    | none => some (.notOp (DataType.mkBool a.dtype.lanes) a)

/-- `right_shift(a, b)`: operands must be integer or unsigned (fatal
otherwise); promote; then the index-const-propagation block (modelled
from the spec, which describes it without further gating): a literal
shift amount must lie in `[0, bits)` of the promoted type or the call
fails fatally, two literals fold to the shifted literal, a literal zero
amount returns the (promoted) left operand; otherwise an
`ir.shift_right` call. -/
def right_shift (a b : PExpr) : Option PExpr :=
  if !(a.dtype.isInt || a.dtype.isUInt) then none
  else if !(b.dtype.isInt || b.dtype.isUInt) then none
  else
    match BinaryOpMatchTypes a b with
    | none => none
    | some (a1, b1) =>
      match b1.intVal? with
      | some vb =>
        if vb < 0 ∨ (a1.dtype.bits : Int) ≤ vb then none
        else
          match a1.intVal? with
          | some va => some (.intImm a1.dtype (asr va vb.toNat))
          | none =>
            if vb = 0 then some a1
            else some (.call a1.dtype "ir.shift_right" [a1, b1])
      | none => some (.call a1.dtype "ir.shift_right" [a1, b1])

/-- `left_shift(a, b)`: same contract as `right_shift` with the left
shift and the `ir.shift_left` call. -/
def left_shift (a b : PExpr) : Option PExpr :=
  if !(a.dtype.isInt || a.dtype.isUInt) then none
  else if !(b.dtype.isInt || b.dtype.isUInt) then none
  else
    match BinaryOpMatchTypes a b with
    | none => none
    | some (a1, b1) =>
      match b1.intVal? with
      | some vb =>
        if vb < 0 ∨ (a1.dtype.bits : Int) ≤ vb then none
        else
          match a1.intVal? with
          | some va => some (.intImm a1.dtype (lsl va vb.toNat))
          | none =>
            if vb = 0 then some a1
            else some (.call a1.dtype "ir.shift_left" [a1, b1])
      | none => some (.call a1.dtype "ir.shift_left" [a1, b1])

/-- `floor(x)`: integer and unsigned operands are returned unchanged; a
float literal is folded with `std::floor`; otherwise an `ir.floor` call
whose result is cast to `Int(64)`. -/
def floor (x : PExpr) : Option PExpr :=
  if x.dtype.isInt || x.dtype.isUInt then some x
  else
    match x with
    | .floatImm t f => some (.floatImm t f.floorF)
    | _ => cast (DataType.mkInt 64 1) (.call x.dtype "ir.floor" [x])

/-- `ceil(x)`: integer and unsigned operands are returned unchanged; a
float literal is folded with `std::ceil`; otherwise an `ir.ceil` call
whose result is cast to `Int(64)`. -/
def ceil (x : PExpr) : Option PExpr :=
  if x.dtype.isInt || x.dtype.isUInt then some x
  else
    match x with
    | .floatImm t f => some (.floatImm t f.ceilF)
    | _ => cast (DataType.mkInt 64 1) (.call x.dtype "ir.ceil" [x])

/-- `round(x)`: integer and unsigned operands are returned unchanged; a
float literal is folded with `std::nearbyint`; otherwise an `ir.round`
call (no integer cast). -/
def round (x : PExpr) : Option PExpr :=
  if x.dtype.isInt || x.dtype.isUInt then some x
  else
    match x with
    | .floatImm t f => some (.floatImm t f.nearbyF)
    | _ => some (.call x.dtype "ir.round" [x])

/-- `nearbyint(x)`: integer and unsigned operands are returned
unchanged; a float literal is folded with `std::nearbyint`; otherwise an
`ir.nearbyint` call. -/
def nearbyint (x : PExpr) : Option PExpr :=
  if x.dtype.isInt || x.dtype.isUInt then some x
  else
    match x with
    | .floatImm t f => some (.floatImm t f.nearbyF)
    | _ => some (.call x.dtype "ir.nearbyint" [x])

/-- `trunc(x)`: integer and unsigned operands are returned unchanged; a
float literal is folded toward zero; otherwise an `ir.trunc` call. -/
def trunc (x : PExpr) : Option PExpr :=
  if x.dtype.isInt || x.dtype.isUInt then some x
  else
    match x with
    | .floatImm t f => some (.floatImm t f.truncF)
    | _ => some (.call x.dtype "ir.trunc" [x])

/-- `node->type_index()`: the dynamic type tag of a node.  Binary
operator nodes of different operators are distinct node classes, so the
tag depends on the operator; all intrinsic calls share the `PrimCall`
class. -/
def typeIndex : PExpr → Nat
  | .intImm _ _ => 0
  | .floatImm _ _ => 1
  | .var _ _ => 2
  | .primCast _ _ => 3
  | .notOp _ _ => 4
  | .call _ _ _ => 5
  | .binOp .add _ _ _ => 10
  | .binOp .div _ _ _ => 11
  | .binOp .floordiv _ _ _ => 12
  | .binOp .floormod _ _ _ => 13
  | .binOp .minT _ _ _ => 14
  | .binOp .maxT _ _ _ => 15
  | .binOp .land _ _ _ => 16
  | .binOp .lor _ _ _ => 17

mutual

/-- Modelled from the spec: `DeepCmpSEqualHandler::SEqualReduce`
together with the externally supplied per-type field comparators
(§4.5): same-object identity (modelled as equality of the embedded
values, which is what holds whenever the same node object is passed on
both sides), dynamic-type check, then field-by-field recursive
comparison; free-variable remapping is disabled, so two distinct
variable nodes compare unequal. -/
def seqr : PExpr → PExpr → Bool
  | l, r =>
    if l = r then true
    else if typeIndex l ≠ typeIndex r then false
    else
      match l, r with
      | .intImm t1 v1, .intImm t2 v2 => decide (t1 = t2) && decide (v1 = v2)
      | .floatImm t1 f1, .floatImm t2 f2 => decide (t1 = t2) && decide (f1 = f2)
      | .var _ _, .var _ _ => false
      | .primCast t1 a1, .primCast t2 a2 => decide (t1 = t2) && seqr a1 a2
      | .binOp g1 t1 a1 b1, .binOp g2 t2 a2 b2 =>
        decide (g1 = g2) && decide (t1 = t2) && seqr a1 a2 && seqr b1 b2
      | .notOp t1 a1, .notOp t2 a2 => decide (t1 = t2) && seqr a1 a2
      | .call t1 o1 as1, .call t2 o2 as2 =>
        decide (t1 = t2) && decide (o1 = o2) && seqrList as1 as2
      | _, _ => false

/-- Pointwise recursive comparison of call-argument lists. -/
def seqrList : List PExpr → List PExpr → Bool
  | [], [] => true
  | [], _ :: _ => false
  | _ :: _, [] => false
  | a :: as, b :: bs => seqr a b && seqrList as bs

end

/-- `ExprDeepEqual::operator()` from `deep_equal.cc`: same-object quick
path (modelled as equality of the embedded values; `none` is the
undefined expression), definedness checks, dynamic-type check, the
direct `(dtype, value)` comparison for a pair of integer literals, and
otherwise the generic reducer. -/
def exprDeepEqual (lhs rhs : Option PExpr) : Bool :=
  if lhs = rhs then true
  else
    match lhs, rhs with
    | none, some _ => false
    | some _, none => false
    | none, none => true
    | some l, some r =>
      if typeIndex l ≠ typeIndex r then false
      else
        match l, r with
        | .intImm t1 v1, .intImm t2 v2 => decide (t1 = t2) && decide (v1 = v2)
        | _, _ => seqr l r

theorem isInt_iff {t : DataType} : t.isInt = true ↔ t.code = TypeCode.int := by
  simp [DataType.isInt]

theorem isUInt_iff {t : DataType} : t.isUInt = true ↔ t.code = TypeCode.uint := by
  simp [DataType.isUInt]

theorem isFloat_iff {t : DataType} : t.isFloat = true ↔ t.code = TypeCode.float := by
  simp [DataType.isFloat]

theorem makeConstI_dtype {t : DataType} {v : Int} {w : PExpr}
    (h : makeConstI t v = some w) : w.dtype = t := by
  unfold makeConstI at h
  split at h
  · simp only [Option.some.injEq] at h
    subst h; rfl
  · split at h
    · simp only [Option.some.injEq] at h
      subst h; rfl
    · exact Option.noConfusion h

theorem makeConstF_dtype {t : DataType} {f : FloatVal} {w : PExpr}
    (h : makeConstF t f = some w) : w.dtype = t := by
  unfold makeConstF at h
  split at h
  · rw [Option.map_eq_some'] at h
    obtain ⟨v, _, rfl⟩ := h
    rfl
  · split at h
    · simp only [Option.some.injEq] at h
      subst h; rfl
    · exact Option.noConfusion h

/-- The result of a successful `cast` carries the target descriptor. -/
theorem cast_dtype {t : DataType} {v w : PExpr} (h : cast t v = some w) :
    w.dtype = t := by
  unfold cast at h
  split at h
  · next heq =>
    simp only [Option.some.injEq] at h
    subst h; exact heq
  · split at h
    · split at h
      · exact makeConstI_dtype h
      · exact makeConstF_dtype h
      · simp only [Option.some.injEq] at h
        subst h; rfl
    · split at h
      · simp only [Option.some.injEq] at h
        subst h; rfl
      · exact Option.noConfusion h

/-- `cast` maps a non-literal operand to a non-literal result. -/
theorem cast_not_imm {t : DataType} {v w : PExpr} (hv : v.isImm = false)
    (h : cast t v = some w) : w.isImm = false := by
  unfold cast at h
  split at h
  · simp only [Option.some.injEq] at h
    subst h; exact hv
  · split at h
    · split at h
      · simp [PExpr.isImm] at hv
      · simp [PExpr.isImm] at hv
      · simp only [Option.some.injEq] at h
        subst h; rfl
    · split at h
      · simp only [Option.some.injEq] at h
        subst h; rfl
      · exact Option.noConfusion h

theorem SimpleCast_dtype (t : DataType) (v : PExpr) : (SimpleCast t v).dtype = t := by
  unfold SimpleCast
  split
  · next heq => exact heq
  · rfl

theorem SimpleCast_not_imm {t : DataType} {v : PExpr} (hv : v.isImm = false) :
    (SimpleCast t v).isImm = false := by
  unfold SimpleCast
  split
  · exact hv
  · rfl

/-- After a successful promotion the two operands carry the same
descriptor. -/
theorem bomt_dtype_eq {a b a1 b1 : PExpr}
    (h : BinaryOpMatchTypes a b = some (a1, b1)) : a1.dtype = b1.dtype := by
  unfold BinaryOpMatchTypes at h
  split at h
  · next heq =>
    simp only [Option.some.injEq, Prod.mk.injEq] at h
    obtain ⟨rfl, rfl⟩ := h
    exact heq
  · split at h
    · exact Option.noConfusion h
    · next hlanes =>
      split at h
      · rw [Option.map_eq_some'] at h
        obtain ⟨l, hl, hpair⟩ := h
        simp only [Prod.mk.injEq] at hpair
        obtain ⟨rfl, rfl⟩ := hpair
        exact cast_dtype hl
      · split at h
        · rw [Option.map_eq_some'] at h
          obtain ⟨r, hr, hpair⟩ := h
          simp only [Prod.mk.injEq] at hpair
          obtain ⟨rfl, rfl⟩ := hpair
          exact (cast_dtype hr).symm
        · split at h
          · split at h
            · rw [Option.map_eq_some'] at h
              obtain ⟨l, hl, hpair⟩ := h
              simp only [Prod.mk.injEq] at hpair
              obtain ⟨rfl, rfl⟩ := hpair
              exact cast_dtype hl
            · rw [Option.map_eq_some'] at h
              obtain ⟨r, hr, hpair⟩ := h
              simp only [Prod.mk.injEq] at hpair
              obtain ⟨rfl, rfl⟩ := hpair
              exact (cast_dtype hr).symm
          · split at h
            · simp only [Option.some.injEq, Prod.mk.injEq] at h
              obtain ⟨rfl, rfl⟩ := h
              rw [SimpleCast_dtype, SimpleCast_dtype]
              have hleq : a.dtype.lanes = b.dtype.lanes := not_not.mp hlanes
              rw [hleq]
            · exact Option.noConfusion h

/-- Promotion maps a non-literal left operand to a non-literal left
operand. -/
theorem bomt_not_imm_left {a b a1 b1 : PExpr} (ha : a.isImm = false)
    (h : BinaryOpMatchTypes a b = some (a1, b1)) : a1.isImm = false := by
  unfold BinaryOpMatchTypes at h
  split at h
  · simp only [Option.some.injEq, Prod.mk.injEq] at h
    obtain ⟨rfl, rfl⟩ := h
    exact ha
  · split at h
    · exact Option.noConfusion h
    · split at h
      · rw [Option.map_eq_some'] at h
        obtain ⟨l, hl, hpair⟩ := h
        simp only [Prod.mk.injEq] at hpair
        obtain ⟨rfl, rfl⟩ := hpair
        exact cast_not_imm ha hl
      · split at h
        · rw [Option.map_eq_some'] at h
          obtain ⟨r, hr, hpair⟩ := h
          simp only [Prod.mk.injEq] at hpair
          obtain ⟨rfl, rfl⟩ := hpair
          exact ha
        · split at h
          · split at h
            · rw [Option.map_eq_some'] at h
              obtain ⟨l, hl, hpair⟩ := h
              simp only [Prod.mk.injEq] at hpair
              obtain ⟨rfl, rfl⟩ := hpair
              exact cast_not_imm ha hl
            · rw [Option.map_eq_some'] at h
              obtain ⟨r, hr, hpair⟩ := h
              simp only [Prod.mk.injEq] at hpair
              obtain ⟨rfl, rfl⟩ := hpair
              exact ha
          · split at h
            · simp only [Option.some.injEq, Prod.mk.injEq] at h
              obtain ⟨rfl, rfl⟩ := h
              exact SimpleCast_not_imm ha
            · exact Option.noConfusion h

/-- Promotion maps a non-literal right operand to a non-literal right
operand. -/
theorem bomt_not_imm_right {a b a1 b1 : PExpr} (hb : b.isImm = false)
    (h : BinaryOpMatchTypes a b = some (a1, b1)) : b1.isImm = false := by
  unfold BinaryOpMatchTypes at h
  split at h
  · simp only [Option.some.injEq, Prod.mk.injEq] at h
    obtain ⟨rfl, rfl⟩ := h
    exact hb
  · split at h
    · exact Option.noConfusion h
    · split at h
      · rw [Option.map_eq_some'] at h
        obtain ⟨l, hl, hpair⟩ := h
        simp only [Prod.mk.injEq] at hpair
        obtain ⟨rfl, rfl⟩ := hpair
        exact hb
      · split at h
        · rw [Option.map_eq_some'] at h
          obtain ⟨r, hr, hpair⟩ := h
          simp only [Prod.mk.injEq] at hpair
          obtain ⟨rfl, rfl⟩ := hpair
          exact cast_not_imm hb hr
        · split at h
          · split at h
            · rw [Option.map_eq_some'] at h
              obtain ⟨l, hl, hpair⟩ := h
              simp only [Prod.mk.injEq] at hpair
              obtain ⟨rfl, rfl⟩ := hpair
              exact hb
            · rw [Option.map_eq_some'] at h
              obtain ⟨r, hr, hpair⟩ := h
              simp only [Prod.mk.injEq] at hpair
              obtain ⟨rfl, rfl⟩ := hpair
              exact cast_not_imm hb hr
          · split at h
            · simp only [Option.some.injEq, Prod.mk.injEq] at h
              obtain ⟨rfl, rfl⟩ := h
              exact SimpleCast_not_imm hb
            · exact Option.noConfusion h

/-- The folder declines whenever the left operand is not a literal. -/
theorem tryConstFold_none_left {tag : BinTag} {a b : PExpr} (ha : a.isImm = false) :
    tryConstFold tag a b = none := by
  unfold tryConstFold
  split
  · simp [PExpr.isImm] at ha
  · simp [PExpr.isImm] at ha
  · rfl

/-- The folder declines whenever the right operand is not a literal. -/
theorem tryConstFold_none_right {tag : BinTag} {a b : PExpr} (hb : b.isImm = false) :
    tryConstFold tag a b = none := by
  unfold tryConstFold
  split
  · simp [PExpr.isImm] at hb
  · simp [PExpr.isImm] at hb
  · rfl

/-- A folded result is a literal. -/
theorem tryConstFold_imm {tag : BinTag} {a b r : PExpr}
    (h : tryConstFold tag a b = some r) : r.isImm = true := by
  unfold tryConstFold at h
  split at h
  · rw [Option.map_eq_some'] at h
    obtain ⟨v, _, rfl⟩ := h
    rfl
  · rw [Option.map_eq_some'] at h
    obtain ⟨f, _, rfl⟩ := h
    rfl
  · exact Option.noConfusion h

/-- A folded result carries the operator-adjusted operand descriptor. -/
theorem tryConstFold_dtype {tag : BinTag} {a b r : PExpr}
    (h : tryConstFold tag a b = some r) : r.dtype = foldDType tag a.dtype := by
  unfold tryConstFold at h
  split at h
  · rw [Option.map_eq_some'] at h
    obtain ⟨v, _, rfl⟩ := h
    rfl
  · rw [Option.map_eq_some'] at h
    obtain ⟨f, _, rfl⟩ := h
    rfl
  · exact Option.noConfusion h

theorem asr_zero (v : Int) : asr v 0 = v := by
  cases v <;> simp [asr]

/-- Wrapping is the identity on values already representable as
`int64_t`. -/
theorem wrap64_eq_self {v : Int} (h1 : -(2 ^ 63) ≤ v) (h2 : v < 2 ^ 63) :
    wrap64 v = v := by
  unfold wrap64
  have hp : (2 : Int) ^ 63 = 9223372036854775808 := by norm_num
  have hq : (2 : Int) ^ 64 = 18446744073709551616 := by norm_num
  rw [hp, hq]
  rw [hp] at h1 h2
  omega

/-- An expression whose integer-literal view is populated is that
integer literal. -/
theorem intVal?_eq_some {a : PExpr} {v : Int} (h : a.intVal? = some v) :
    a = .intImm a.dtype v := by
  cases a <;> simp [PExpr.intVal?] at h
  rw [PExpr.dtype, h]

/-- C5: for every expression `b`, `min(+inf, b)` returns `b` itself and
`min(-inf, b)` returns the `-inf` operand itself; symmetrically
`max(+inf, b)` returns the `+inf` operand and `max(-inf, b)` returns
`b` — in each case short-circuiting before type promotion, without
constructing any new node. -/
theorem claim5_min_max_infinity (b : PExpr) :
    min (.floatImm F64 .pinf) b = some b ∧
    min (.floatImm F64 .ninf) b = some (.floatImm F64 .ninf) ∧
    max (.floatImm F64 .pinf) b = some (.floatImm F64 .pinf) ∧
    max (.floatImm F64 .ninf) b = some b := by
  refine ⟨?_, ?_, ?_, ?_⟩ <;> simp [MatxIR.min, MatxIR.max, isPosInf, isNegInf]

/-- Rebuilding an integer literal value at any target type (the three
scalar kinds are exhaustive) succeeds with a literal of that type. -/
theorem makeConstI_imm (t : DataType) (v : Int) :
    ∃ w, makeConstI t v = some w ∧ w.isImm = true ∧ w.dtype = t := by
  unfold makeConstI
  cases hc : t.code
  · exact ⟨.intImm t v, by rw [if_pos (by simp [DataType.isInt, hc])], rfl, rfl⟩
  · exact ⟨.intImm t v,
      by rw [if_pos (by simp [DataType.isInt, DataType.isUInt, hc])], rfl, rfl⟩
  · refine ⟨.floatImm t (.fin (v : ℚ)), ?_, rfl, rfl⟩
    rw [if_neg (by simp [DataType.isInt, DataType.isUInt, hc]),
      if_pos (by simp [DataType.isFloat, hc])]

/-- Rebuilding a finite float literal value at any target type succeeds
with a literal of that type (an integer target truncates toward zero). -/
theorem makeConstF_fin_imm (t : DataType) (q : ℚ) :
    ∃ w, makeConstF t (.fin q) = some w ∧ w.isImm = true ∧ w.dtype = t := by
  unfold makeConstF
  cases hc : t.code
  · refine ⟨.intImm t (if q < 0 then ⌈q⌉ else ⌊q⌋), ?_, rfl, rfl⟩
    rw [if_pos (by simp [DataType.isInt, hc])]
    rfl
  · refine ⟨.intImm t (if q < 0 then ⌈q⌉ else ⌊q⌋), ?_, rfl, rfl⟩
    rw [if_pos (by simp [DataType.isInt, DataType.isUInt, hc])]
    rfl
  · refine ⟨.floatImm t (.fin q), ?_, rfl, rfl⟩
    rw [if_neg (by simp [DataType.isInt, DataType.isUInt, hc]),
      if_pos (by simp [DataType.isFloat, hc])]

/-- C6: `cast(t, x)` is a no-op returning `x` itself when `x` already
has type `t`; for a single-lane target, casting an integer literal, or a
float literal holding a finite value, returns a new literal of the
target type rather than a cast node (a non-finite float converted to an
integer target has no defined C++ value and is modelled as the fatal
`none`); in particular `cast(f32, IntLiteral(i32,5))` is
`FloatLiteral(f32, 5.0)`; and `cast` is idempotent: casting an
already-cast result again is the identity. -/
theorem claim6_cast_noop_literal_idempotent :
    (∀ (t : DataType) (x : PExpr), x.dtype = t → cast t x = some x) ∧
    (∀ (t td : DataType) (v : Int), t.lanes = 1 →
        (cast t (.intImm td v)).map (fun w => (w.isImm, w.dtype)) = some (true, t)) ∧
    (∀ (t td : DataType) (q : ℚ), t.lanes = 1 →
        (cast t (.floatImm td (.fin q))).map (fun w => (w.isImm, w.dtype)) =
          some (true, t)) ∧
    cast F32 (.intImm I32 5) = some (.floatImm F32 (.fin 5)) ∧
    (∀ (t : DataType) (x y : PExpr), cast t x = some y → cast t y = some y) := by
  refine ⟨?_, ?_, ?_, by decide, ?_⟩
  · intro t x h
    unfold cast
    rw [if_pos h]
  · intro t td v hl
    by_cases hdt : (PExpr.intImm td v).dtype = t
    · unfold cast
      rw [if_pos hdt]
      simp [PExpr.isImm, PExpr.dtype, ← hdt]
    · obtain ⟨w, hw, hi, hd⟩ := makeConstI_imm t v
      unfold cast
      rw [if_neg hdt, if_pos hl]
      show (makeConstI t v).map (fun w => (w.isImm, w.dtype)) = some (true, t)
      rw [hw]
      simp [hi, hd]
  · intro t td q hl
    by_cases hdt : (PExpr.floatImm td (FloatVal.fin q)).dtype = t
    · unfold cast
      rw [if_pos hdt]
      simp [PExpr.isImm, PExpr.dtype, ← hdt]
    · obtain ⟨w, hw, hi, hd⟩ := makeConstF_fin_imm t q
      unfold cast
      rw [if_neg hdt, if_pos hl]
      show (makeConstF t (.fin q)).map (fun w => (w.isImm, w.dtype)) = some (true, t)
      rw [hw]
      simp [hi, hd]
  · intro t x y h
    have hy := cast_dtype h
    unfold cast
    rw [if_pos hy]

/-- C7: `DeepEqual` is reflexive — for every expression `e`, including
the undefined expression, `DeepEqual(e, e)` is true via the same-object
identity fast path. -/
theorem claim7_deep_equal_refl (e : Option PExpr) : exprDeepEqual e e = true := by
  unfold exprDeepEqual
  rw [if_pos rfl]

/-- C8: for integer-literal operands `DeepEqual` is exactly the
comparison of the `(type, value)` pairs; in particular
`DeepEqual(IntLiteral(i32,5), IntLiteral(i64,5))` is false despite equal
numeric values. -/
theorem claim8_deep_equal_int_literals :
    (∀ (t1 t2 : DataType) (v1 v2 : Int),
        exprDeepEqual (some (.intImm t1 v1)) (some (.intImm t2 v2)) = true ↔
          (t1 = t2 ∧ v1 = v2)) ∧
    exprDeepEqual (some (.intImm I32 5)) (some (.intImm I64 5)) = false := by
  constructor
  · intro t1 t2 v1 v2
    constructor
    · intro h
      by_cases hc : (some (PExpr.intImm t1 v1) : Option PExpr) = some (.intImm t2 v2)
      · simp only [Option.some.injEq, PExpr.intImm.injEq] at hc
        exact hc
      · unfold exprDeepEqual at h
        rw [if_neg hc] at h
        simp [typeIndex] at h
        exact h
    · rintro ⟨rfl, rfl⟩
      unfold exprDeepEqual
      rw [if_pos rfl]
  · decide

/-- C10: for every expression of integer or unsigned type, each of
`floor`, `ceil`, `round`, `nearbyint` and `trunc` returns the operand
itself unchanged — no intrinsic node, no literal evaluation, no cast to
a 64-bit integer type. -/
theorem claim10_rounding_noop_on_integers (x : PExpr)
    (h : (x.dtype.isInt || x.dtype.isUInt) = true) :
    floor x = some x ∧ ceil x = some x ∧ round x = some x ∧
    nearbyint x = some x ∧ trunc x = some x := by
  refine ⟨?_, ?_, ?_, ?_, ?_⟩
  · unfold floor; rw [if_pos h]
  · unfold ceil; rw [if_pos h]
  · unfold round; rw [if_pos h]
  · unfold nearbyint; rw [if_pos h]
  · unfold trunc; rw [if_pos h]

/-- Witness for C10 at a non-literal variable of type `Int(32)`. -/
theorem claim10_witness :
    floor (.var I32 7) = some (.var I32 7) ∧ ceil (.var I32 7) = some (.var I32 7) ∧
    round (.var I32 7) = some (.var I32 7) ∧ nearbyint (.var I32 7) = some (.var I32 7) ∧
    trunc (.var I32 7) = some (.var I32 7) :=
  claim10_rounding_noop_on_integers (.var I32 7) (by decide)

/-- Witness for C6: the no-op, both literal-rebuilding parts and the
idempotence part applied at concrete inputs. -/
theorem claim6_witness :
    cast I32 (.intImm I32 5) = some (.intImm I32 5) ∧
    (cast I64 (.intImm I32 5)).map (fun w => (w.isImm, w.dtype)) = some (true, I64) ∧
    (cast I64 (.floatImm F64 (.fin 5))).map (fun w => (w.isImm, w.dtype)) =
      some (true, I64) ∧
    cast F32 (.floatImm F32 (.fin 5)) = some (.floatImm F32 (.fin 5)) :=
  ⟨claim6_cast_noop_literal_idempotent.1 I32 (.intImm I32 5) (by decide),
   claim6_cast_noop_literal_idempotent.2.1 I64 I32 5 (by decide),
   claim6_cast_noop_literal_idempotent.2.2.1 I64 F64 5 (by decide),
   claim6_cast_noop_literal_idempotent.2.2.2.2 F32 (.intImm I32 5) (.floatImm F32 (.fin 5))
     (by decide)⟩

/-- C2: whenever `div(a, b)` produces a result, both operands were cast
to 64-bit float before folding or node construction, and the result —
folded literal or constructed call — has type `Float(64)`, regardless
of the input types.  (When promotion itself fails fatally, e.g. on a
lane mismatch, no result is produced.) -/
theorem claim2_div_always_f64 (a b r : PExpr) (h : div a b = some r) :
    r.dtype = F64 := by
  unfold div at h
  split at h
  · exact Option.noConfusion h
  · split at h
    · exact Option.noConfusion h
    · next a2 ha2 =>
      split at h
      · exact Option.noConfusion h
      · split at h
        · next ret hret =>
          simp only [Option.some.injEq] at h
          subst h
          rw [tryConstFold_dtype hret, cast_dtype ha2]
          rfl
        · split at h
          · exact Option.noConfusion h
          · split at h
            · exact Option.noConfusion h
            · simp only [Option.some.injEq] at h
              subst h
              rfl

/-- Witness for C2 at two non-literal `Int(32)` operands. -/
theorem claim2_witness :
    (PExpr.call F64 "ir.div"
      [.primCast F64 (.var I32 0), .primCast F64 (.var I32 1)]).dtype = F64 :=
  claim2_div_always_f64 (.var I32 0) (.var I32 1)
    (.call F64 "ir.div" [.primCast F64 (.var I32 0), .primCast F64 (.var I32 1)])
    (by decide)

/-- C3: for integer-typed operands of opposite signedness and matching
lane counts, `BinaryOpMatchTypes` succeeds and replaces both operands so
that each carries the signed integer type of width
`max(bits_lhs, bits_rhs)`; the unsigned-preferred promotion path is
never taken. -/
theorem claim3_mixed_sign_promotes_signed (a b : PExpr)
    (hl : a.dtype.lanes = b.dtype.lanes)
    (hmix : ((a.dtype.isInt && b.dtype.isUInt) || (a.dtype.isUInt && b.dtype.isInt)) = true) :
    (BinaryOpMatchTypes a b).map (fun p => (p.1.dtype, p.2.dtype)) =
      some (DataType.mkInt (Nat.max a.dtype.bits b.dtype.bits) a.dtype.lanes,
            DataType.mkInt (Nat.max a.dtype.bits b.dtype.bits) a.dtype.lanes) := by
  simp only [Bool.or_eq_true, Bool.and_eq_true, isInt_iff, isUInt_iff] at hmix
  have hcodes : a.dtype.code ≠ b.dtype.code := by
    rcases hmix with ⟨h1, h2⟩ | ⟨h1, h2⟩ <;> rw [h1, h2] <;> intro hc <;> cases hc
  have hne : a.dtype ≠ b.dtype := fun hc => hcodes (by rw [hc])
  have hfa : a.dtype.isFloat = false := by
    rcases hmix with ⟨h1, _⟩ | ⟨h1, _⟩ <;> simp [DataType.isFloat, h1]
  have hfb : b.dtype.isFloat = false := by
    rcases hmix with ⟨_, h2⟩ | ⟨_, h2⟩ <;> simp [DataType.isFloat, h2]
  have hsame : ((a.dtype.isInt && b.dtype.isInt) ||
      (a.dtype.isUInt && b.dtype.isUInt)) = false := by
    rcases hmix with ⟨h1, h2⟩ | ⟨h1, h2⟩ <;>
      simp [DataType.isInt, DataType.isUInt, h1, h2]
  have hmixb : ((a.dtype.isInt && b.dtype.isUInt) ||
      (a.dtype.isUInt && b.dtype.isInt)) = true := by
    rcases hmix with ⟨h1, h2⟩ | ⟨h1, h2⟩ <;>
      simp [DataType.isInt, DataType.isUInt, h1, h2]
  unfold BinaryOpMatchTypes
  rw [if_neg hne, if_neg (by simp [hl]), if_neg (by simp [hfa, hfb]),
    if_neg (by simp [hfa, hfb]), if_neg (by simp [hsame]), if_pos hmixb]
  simp only [Option.map_some', SimpleCast_dtype, hl]

/-- Witness for C3 at a signed 32-bit and an unsigned 16-bit variable. -/
theorem claim3_witness :
    (BinaryOpMatchTypes (.var I32 0) (.var U16 1)).map (fun p => (p.1.dtype, p.2.dtype)) =
      some (DataType.mkInt (Nat.max I32.bits U16.bits) I32.lanes,
            DataType.mkInt (Nat.max I32.bits U16.bits) I32.lanes) :=
  claim3_mixed_sign_promotes_signed (.var I32 0) (.var U16 1) (by decide) (by decide)

/-- C9 counterexample: `logic_and` performs no type promotion, so on an
`Int(32)` and an `Int(64)` operand it builds an `And` node whose two
children carry different type descriptors — the claimed invariant fails
for the logical constructors. -/
theorem claim9_counterexample :
    logic_and (.var I32 0) (.var I64 1) =
      some (.binOp .land B1 (.var I32 0) (.var I64 1)) ∧
    (PExpr.var I32 0).dtype ≠ (PExpr.var I64 1).dtype := ⟨by decide, by decide⟩

/-- C9 (amended): every binary operator node built by a constructor that
promotes through `BinaryOpMatchTypes` (such as `add`) has two children
with identical type descriptors at the moment the node is built, because
promotion leaves the operands type-matched; `logic_and`/`logic_or`
perform no promotion and can therefore build nodes whose children's
descriptors differ. -/
theorem claim9_promoted_children_match :
    (∀ a b a1 b1 : PExpr,
        BinaryOpMatchTypes a b = some (a1, b1) → a1.dtype = b1.dtype) ∧
    (∀ (a b r x y : PExpr) (tg : BinTag) (t : DataType),
        add a b = some r → r = .binOp tg t x y → x.dtype = y.dtype) := by
  constructor
  · intro a b a1 b1 h
    exact bomt_dtype_eq h
  · intro a b r x y tg t h hr
    subst hr
    unfold add at h
    split at h
    · exact Option.noConfusion h
    · next a1 b1 hbomt =>
      split at h
      · next ret hret =>
        simp only [Option.some.injEq] at h
        have himm := tryConstFold_imm hret
        rw [h] at himm
        simp [PExpr.isImm] at himm
      · simp only [Option.some.injEq, PExpr.binOp.injEq] at h
        obtain ⟨_, _, rfl, rfl⟩ := h
        exact bomt_dtype_eq hbomt

/-- Witness for C9 at concrete promoted operands. -/
theorem claim9_witness :
    (PExpr.intImm I32 7).dtype = (PExpr.primCast I32 (.var U16 1)).dtype ∧
    (PExpr.var I32 0).dtype = (PExpr.var I32 1).dtype :=
  ⟨claim9_promoted_children_match.1 (.intImm I32 7) (.var U16 1)
      (.intImm I32 7) (.primCast I32 (.var U16 1)) (by decide),
   claim9_promoted_children_match.2 (.var I32 0) (.var I32 1)
      (.binOp .add I32 (.var I32 0) (.var I32 1)) (.var I32 0) (.var I32 1) .add I32
      (by decide) rfl⟩

/-- C4: for `right_shift` and `left_shift` on integer/unsigned operands,
after promotion a literal shift amount must lie in `[0, bit-width)` of
the promoted type or the call fails fatally; a literal zero shift amount
returns the (promoted) left operand unchanged, even when it is not a
literal; and two in-range literals fold to the shifted literal, the left
shift wrapping in 64-bit two's complement exactly as the source's
`int64_t` shift does.  In the zero-shift part, a literal left operand
carries the int64 representability its `IntImmNode` storage guarantees
(vacuous for the non-literal operands the claim emphasises). -/
theorem claim4_shift_literal_contract :
    (∀ (a b a1 : PExpr) (t : DataType) (vb : Int),
        (a.dtype.isInt || a.dtype.isUInt) = true →
        (b.dtype.isInt || b.dtype.isUInt) = true →
        BinaryOpMatchTypes a b = some (a1, .intImm t vb) →
        (vb < 0 ∨ (a1.dtype.bits : Int) ≤ vb) →
        right_shift a b = none ∧ left_shift a b = none) ∧
    (∀ (a b a1 : PExpr) (t : DataType),
        (a.dtype.isInt || a.dtype.isUInt) = true →
        (b.dtype.isInt || b.dtype.isUInt) = true →
        BinaryOpMatchTypes a b = some (a1, .intImm t 0) →
        0 < a1.dtype.bits →
        (∀ (ta : DataType) (va : Int), a1 = .intImm ta va →
          -(2 ^ 63) ≤ va ∧ va < 2 ^ 63) →
        right_shift a b = some a1 ∧ left_shift a b = some a1) ∧
    (∀ (t : DataType) (va vb : Int),
        (t.isInt || t.isUInt) = true →
        0 ≤ vb → vb < (t.bits : Int) →
        right_shift (.intImm t va) (.intImm t vb) = some (.intImm t (asr va vb.toNat)) ∧
        left_shift (.intImm t va) (.intImm t vb) = some (.intImm t (lsl va vb.toNat))) := by
  refine ⟨?_, ?_, ?_⟩
  · intro a b a1 t vb ha hb hbomt hrange
    constructor
    · unfold right_shift
      rw [if_neg (by simp [ha]), if_neg (by simp [hb]), hbomt]
      simp only [PExpr.intVal?]
      rw [if_pos hrange]
    · unfold left_shift
      rw [if_neg (by simp [ha]), if_neg (by simp [hb]), hbomt]
      simp only [PExpr.intVal?]
      rw [if_pos hrange]
  · intro a b a1 t ha hb hbomt hbits hrep
    have hrange : ¬((0 : Int) < 0 ∨ (a1.dtype.bits : Int) ≤ 0) := by omega
    constructor
    · unfold right_shift
      rw [if_neg (by simp [ha]), if_neg (by simp [hb]), hbomt]
      cases a1
      case intImm ta va =>
        simp only [PExpr.intVal?]
        rw [if_neg hrange]
        simp [PExpr.dtype, asr_zero]
      all_goals
        simp [PExpr.intVal?, hrange]
        omega
    · unfold left_shift
      rw [if_neg (by simp [ha]), if_neg (by simp [hb]), hbomt]
      cases a1
      case intImm ta va =>
        simp only [PExpr.intVal?]
        rw [if_neg hrange]
        have hr := hrep ta va rfl
        have hwr : lsl va 0 = va := by
          unfold lsl
          simp only [pow_zero, mul_one]
          exact wrap64_eq_self hr.1 hr.2
        simp [PExpr.dtype, hwr]
      all_goals
        simp [PExpr.intVal?, hrange]
        omega
  · intro t va vb ht h0 hlt
    have hbomt : BinaryOpMatchTypes (.intImm t va) (.intImm t vb) =
        some (.intImm t va, .intImm t vb) := by
      unfold BinaryOpMatchTypes
      rw [if_pos (show (PExpr.intImm t va).dtype = (PExpr.intImm t vb).dtype from rfl)]
    have hrange : ¬(vb < 0 ∨ ((PExpr.intImm t va).dtype.bits : Int) ≤ vb) := by
      rw [PExpr.dtype]
      omega
    constructor
    · unfold right_shift
      rw [if_neg (by simp [PExpr.dtype, ht]), if_neg (by simp [PExpr.dtype, ht]), hbomt]
      simp only [PExpr.intVal?]
      rw [if_neg hrange]
      rfl
    · unfold left_shift
      rw [if_neg (by simp [PExpr.dtype, ht]), if_neg (by simp [PExpr.dtype, ht]), hbomt]
      simp only [PExpr.intVal?]
      rw [if_neg hrange]
      rfl

/-- Witness for C4: a fatal negative shift amount, a zero shift amount
on a non-literal left operand, and a two-literal fold, at concrete
`Int(32)` inputs. -/
theorem claim4_witness :
    (right_shift (.var I32 0) (.intImm I32 (-1)) = none ∧
      left_shift (.var I32 0) (.intImm I32 (-1)) = none) ∧
    (right_shift (.var I32 0) (.intImm I32 0) = some (.var I32 0) ∧
      left_shift (.var I32 0) (.intImm I32 0) = some (.var I32 0)) ∧
    (right_shift (.intImm I32 12) (.intImm I32 2) =
        some (.intImm I32 (asr 12 (Int.toNat 2))) ∧
      left_shift (.intImm I32 12) (.intImm I32 2) =
        some (.intImm I32 (lsl 12 (Int.toNat 2)))) :=
  ⟨claim4_shift_literal_contract.1 (.var I32 0) (.intImm I32 (-1)) (.var I32 0) I32 (-1)
      (by decide) (by decide) (by decide) (Or.inl (by decide)),
   claim4_shift_literal_contract.2.1 (.var I32 0) (.intImm I32 0) (.var I32 0) I32
      (by decide) (by decide) (by decide) (by decide)
      (fun ta va h => PExpr.noConfusion h),
   claim4_shift_literal_contract.2.2 I32 12 2 (by decide) (by decide) (by decide)⟩

/-- C1 counterexample: `floordiv(IntLiteral(i32,7), IntLiteral(i16,2))`
is intercepted by the constant folder before the `Int(64)` forcing — the
result is the folded literal `IntLiteral(i32,3)`, whose type is the
promoted operand type `Int(32)`, not `Int(64)`. -/
theorem claim1_counterexample :
    floordiv (.intImm I32 7) (.intImm I16 2) = some (.intImm I32 3) ∧
    (PExpr.intImm I32 3).dtype ≠ I64 := ⟨by decide, by decide⟩

/-- C1 (amended): for integer/unsigned operand pairs, `floordiv` (and
`floormod`; `truncdiv` and `indexdiv` are definitionally `floordiv`)
forces the result type to 64-bit signed integer whenever the constant
fold does not apply — that is, whenever at least one operand is not a
literal; when both operands are literals the folded literal keeps the
promoted operand type instead.  If either operand is non-integer and the
fold does not apply, both operands are cast to 64-bit float and the
result has that float type. -/
theorem claim1_floordiv_result_type :
    (∀ a b r : PExpr,
        (a.dtype.isInt || a.dtype.isUInt) = true →
        (b.dtype.isInt || b.dtype.isUInt) = true →
        (a.isImm = false ∨ b.isImm = false) →
        floordiv a b = some r → r.dtype = I64) ∧
    (∀ a b r : PExpr,
        (a.dtype.isInt || a.dtype.isUInt) = true →
        (b.dtype.isInt || b.dtype.isUInt) = true →
        (a.isImm = false ∨ b.isImm = false) →
        floormod a b = some r → r.dtype = I64) ∧
    (∀ a b : PExpr, truncdiv a b = floordiv a b) ∧
    (∀ a b : PExpr, indexdiv a b = floordiv a b) ∧
    (∀ a b r : PExpr,
        ((a.dtype.isInt || a.dtype.isUInt) && (b.dtype.isInt || b.dtype.isUInt)) = false →
        (a.isImm = false ∨ b.isImm = false) →
        floordiv a b = some r → r.dtype = F64) := by
  refine ⟨?_, ?_, fun a b => rfl, fun a b => rfl, ?_⟩
  · intro a b r ha hb hni h
    unfold floordiv at h
    split at h
    · exact Option.noConfusion h
    · next a1 b1 hbomt =>
      split at h
      · next ret hret =>
        have hfold : tryConstFold .floordiv a1 b1 = none := by
          rcases hni with hna | hnb
          · exact tryConstFold_none_left (bomt_not_imm_left hna hbomt)
          · exact tryConstFold_none_right (bomt_not_imm_right hnb hbomt)
        rw [hfold] at hret
        exact Option.noConfusion hret
      · rw [if_pos (by simp [ha, hb])] at h
        simp only [Option.some.injEq] at h
        subst h
        rfl
  · intro a b r ha hb hni h
    unfold floormod at h
    split at h
    · exact Option.noConfusion h
    · next a1 b1 hbomt =>
      split at h
      · next ret hret =>
        have hfold : tryConstFold .floormod a1 b1 = none := by
          rcases hni with hna | hnb
          · exact tryConstFold_none_left (bomt_not_imm_left hna hbomt)
          · exact tryConstFold_none_right (bomt_not_imm_right hnb hbomt)
        rw [hfold] at hret
        exact Option.noConfusion hret
      · rw [if_pos (by simp [ha, hb])] at h
        simp only [Option.some.injEq] at h
        subst h
        rfl
  · intro a b r hcond hni h
    unfold floordiv at h
    split at h
    · exact Option.noConfusion h
    · next a1 b1 hbomt =>
      split at h
      · next ret hret =>
        have hfold : tryConstFold .floordiv a1 b1 = none := by
          rcases hni with hna | hnb
          · exact tryConstFold_none_left (bomt_not_imm_left hna hbomt)
          · exact tryConstFold_none_right (bomt_not_imm_right hnb hbomt)
        rw [hfold] at hret
        exact Option.noConfusion hret
      · rw [if_neg (by simp [hcond])] at h
        split at h
        · exact Option.noConfusion h
        · next a2 ha2 =>
          split at h
          · exact Option.noConfusion h
          · simp only [Option.some.injEq] at h
            subst h
            show a2.dtype = F64
            exact cast_dtype ha2

/-- Witness for C1: the `Int(64)` forcing on non-literal integer
operands, the same for `floormod`, and the `Float(64)` result on
non-literal float operands. -/
theorem claim1_witness :
    (PExpr.call I64 "ir.floordiv" [.var I32 0, .var I32 1]).dtype = I64 ∧
    (PExpr.call I64 "ir.floormod" [.var I32 0, .var I32 1]).dtype = I64 ∧
    (PExpr.call F64 "ir.floordiv"
        [.primCast F64 (.var F32 0), .primCast F64 (.var F32 1)]).dtype = F64 :=
  ⟨claim1_floordiv_result_type.1 (.var I32 0) (.var I32 1)
      (.call I64 "ir.floordiv" [.var I32 0, .var I32 1])
      (by decide) (by decide) (Or.inl (by decide)) (by decide),
   claim1_floordiv_result_type.2.1 (.var I32 0) (.var I32 1)
      (.call I64 "ir.floormod" [.var I32 0, .var I32 1])
      (by decide) (by decide) (Or.inl (by decide)) (by decide),
   claim1_floordiv_result_type.2.2.2.2 (.var F32 0) (.var F32 1)
      (.call F64 "ir.floordiv" [.primCast F64 (.var F32 0), .primCast F64 (.var F32 1)])
      (by decide) (Or.inl (by decide)) (by decide)⟩

end MatxIR
